import Mathlib

/-!
Verification development for the `tune` repository's cover-art URL rewriting
scripts (`scripts/update_cover_art_urls.py` and
`scripts/update_cover_art_urls_optimized.py`).

The scripts load a JSON array of track records, rewrite each record's
`coverArt` field from a site-relative path to an absolute URL with the fixed
filename `Cover.jpg`, and write the array back.  We embed the JSON values the
scripts manipulate, the Python string operations they use (`lstrip`,
`startswith`, `os.path.dirname` with POSIX `/` separators,
`urllib.parse.quote`, `str.split`, `str.join`), the per-record transform, and
the two top-level drivers (sequential loop, and `multiprocessing.Pool.map`
dispatch).  Fallible Python operations (attribute errors on non-string
`coverArt` values) are embedded with `Except`.
-/

/-- A JSON scalar value as relevant to a track record's fields.  `coverArt` is
normally a string; other fields are opaque and only compared for equality. -/
inductive JVal where
  | str : String → JVal
  | num : Int → JVal
  | null : JVal
  | boolean : Bool → JVal
deriving DecidableEq, Repr

/-- A track record: a Python dict as parsed from JSON, i.e. an insertion-ordered
association list of string keys to values (Python dicts have unique keys). -/
abbrev Track := List (String × JVal)

/-- Python dict lookup `track[k]` / membership `k in track`: the value at the
first binding of key `k`, if any. -/
def dictGet (k : String) : Track → Option JVal
  | [] => none
  | kv :: rest => if kv.fst = k then some kv.snd else dictGet k rest

/-- Python dict assignment `track["coverArt"] = v` on a dict already containing
the key: replaces the value at the `coverArt` binding, keeping insertion order
and all other bindings. -/
def setCoverArt (t : Track) (v : JVal) : Track :=
  t.map (fun kv => if kv.fst = "coverArt" then (kv.fst, v) else kv)

/-- Python `s.lstrip("/")`: removes ALL leading `'/'` characters. -/
def lstripSlash (s : String) : String :=
  String.mk (s.data.dropWhile (fun c => c = '/'))

/-- Python `s.startswith("/")`: true iff the first character is `'/'`. -/
def pyStartswithSlash (s : String) : Bool :=
  match s.data with
  | [] => false
  | c :: _ => c = '/'

/-- Remove all trailing `'/'` characters from a character list
(Python `head.rstrip("/")` inside `posixpath.split`). -/
def rstripSlash (l : List Char) : List Char :=
  (l.reverse.dropWhile (fun c => c = '/')).reverse

/-- Python `os.path.dirname` with POSIX `/` separators (`posixpath.dirname`):
everything before the last `'/'`, with trailing slashes stripped unless the
head consists only of slashes; `""` when there is no `'/'`. -/
def pyDirname (s : String) : String :=
  let cs := s.data
  let tail := (cs.reverse.takeWhile (fun c => c ≠ '/')).reverse
  let head := cs.take (cs.length - tail.length)
  if head ≠ [] ∧ ¬ head.all (fun c => c = '/') then String.mk (rstripSlash head)
  else String.mk head

/-- Uppercase hexadecimal digit for `n < 16`, as used by `urllib.parse.quote`. -/
def hexUpper (n : Nat) : Char :=
  if n < 10 then Char.ofNat (48 + n) else Char.ofNat (55 + n)

/-- The UTF-8 encoding of the code point `n`, as a list of byte values. -/
def utf8Bytes (n : Nat) : List Nat :=
  if n < 128 then [n]
  else if n < 2048 then [192 + n / 64, 128 + n % 64]
  else if n < 65536 then [224 + n / 4096, 128 + (n / 64) % 64, 128 + n % 64]
  else [240 + n / 262144, 128 + (n / 4096) % 64, 128 + (n / 64) % 64, 128 + n % 64]

/-- The characters `urllib.parse.quote` leaves unencoded with its default
`safe='/'`: ASCII letters and digits, `_`, `.`, `-`, `~`, and `/`. -/
def safeChar (c : Char) : Bool :=
  c.isAlpha || c.isDigit || c = '_' || c = '.' || c = '-' || c = '~' || c = '/'

/-- `urllib.parse.quote` on a single character: kept if safe, otherwise each
UTF-8 byte becomes `%XX` with uppercase hex. -/
def quoteChar (c : Char) : List Char :=
  if safeChar c then [c]
  else (utf8Bytes c.toNat).flatMap (fun b => ['%', hexUpper (b / 16), hexUpper (b % 16)])

/-- `urllib.parse.quote(segment)` with default arguments. -/
def pyQuote (l : List Char) : List Char :=
  l.flatMap quoteChar

/-- Python `s.split("/")`: the `/`-delimited pieces, one more piece than there
are slashes (empty pieces included). -/
def splitSlash : List Char → List (List Char)
  | [] => [[]]
  | c :: cs =>
    if c = '/' then [] :: splitSlash cs
    else
      match splitSlash cs with
      | [] => [[c]]
      | p :: ps => (c :: p) :: ps

/-- Python `"/".join(pieces)`. -/
def joinSlash : List (List Char) → List Char
  | [] => []
  | [p] => p
  | p :: ps => p ++ '/' :: joinSlash ps

/-- The coverArt rewrite shared by both scripts, lines 31–47 of
`update_cover_art_urls.py` and lines 14–30 of
`update_cover_art_urls_optimized.py`:
`relative_path = coverArt.lstrip("/")`; `directory = os.path.dirname(relative_path)`;
`new_path = f"{directory}/Cover.jpg"`; split on `/`, `urllib.parse.quote` each
segment, rejoin with `/`; result `f"{base_url}/{encoded_path}"`. -/
def rewriteUrl (baseUrl : String) (coverArt : String) : String :=
  let relative_path := lstripSlash coverArt
  let directory := pyDirname relative_path
  let new_path := directory.data ++ '/' :: "Cover.jpg".data
  let path_segments := splitSlash new_path
  let encoded_segments := path_segments.map pyQuote
  let encoded_path := joinSlash encoded_segments
  String.mk (baseUrl.data ++ '/' :: encoded_path)

/-- The Python exception a run can raise: `AttributeError`, from calling
`.startswith` on a non-string `coverArt` value. -/
inductive PyError where
  | attributeError : PyError
deriving DecidableEq, Repr

/-- Decidable equality of `Except` results, so that concrete runs can be
checked by evaluation. -/
instance {ε α : Type} [DecidableEq ε] [DecidableEq α] :
    DecidableEq (Except ε α) := fun a b =>
  match a, b with
  | Except.error e, Except.error f =>
    if h : e = f then Decidable.isTrue (congrArg Except.error h)
    else Decidable.isFalse (fun hc => h (Except.error.inj hc))
  | Except.ok x, Except.ok y =>
    if h : x = y then Decidable.isTrue (congrArg Except.ok h)
    else Decidable.isFalse (fun hc => h (Except.ok.inj hc))
  | Except.error _, Except.ok _ => Decidable.isFalse (fun hc => Except.noConfusion hc)
  | Except.ok _, Except.error _ => Decidable.isFalse (fun hc => Except.noConfusion hc)

/-- The base URL hard-coded in both scripts. -/
def base_url : String := "https://tune-mu.vercel.app"

/-- The body of the `for track in tracks` loop of `update_cover_art_urls.py`
(lines 28–48): if `"coverArt" in track and track["coverArt"].startswith("/")`,
rewrite `track["coverArt"]` and count the update.  Returns the (possibly
updated) record and whether `updated_count` was incremented; calling
`.startswith` on a non-string value raises `AttributeError`. -/
def seqBody (baseUrl : String) (track : Track) : Except PyError (Track × Bool) :=
  match dictGet "coverArt" track with
  | some (JVal.str s) =>
    if pyStartswithSlash s then
      Except.ok (setCoverArt track (JVal.str (rewriteUrl baseUrl s)), true)
    else
      Except.ok (track, false)
  | some _ => Except.error PyError.attributeError
  | none => Except.ok (track, false)

/-- The sequential driver `main` of `update_cover_art_urls.py`: runs the loop
body over the records in order, producing the collection that is serialized
back to the file and the reported `updated_count`.  An exception anywhere
aborts the run before the file is written. -/
def seqMain (baseUrl : String) : List Track → Except PyError (List Track × Nat)
  | [] => Except.ok ([], 0)
  | track :: rest =>
    match seqBody baseUrl track with
    | Except.error e => Except.error e
    | Except.ok (t', b) =>
      match seqMain baseUrl rest with
      | Except.error e => Except.error e
      | Except.ok (rest', n) => Except.ok (t' :: rest', (if b then 1 else 0) + n)

/-- `process_track(track, base_url)` of `update_cover_art_urls_optimized.py`
(lines 10–32): the identical per-record transform, returning the updated
record (in the worker process) and `True`, or the record unchanged and
`False`. -/
def process_track (baseUrl : String) (track : Track) : Except PyError (Track × Bool) :=
  match dictGet "coverArt" track with
  | some (JVal.str s) =>
    if pyStartswithSlash s then
      Except.ok (setCoverArt track (JVal.str (rewriteUrl baseUrl s)), true)
    else
      Except.ok (track, false)
  | some _ => Except.error PyError.attributeError
  | none => Except.ok (track, false)

/-- `results = pool.map(process_func, tracks)` of
`update_cover_art_urls_optimized.py`: each record is pickled to a worker,
`process_track` runs on the worker's copy, and only its boolean return value
is sent back, in input order.  A worker exception is re-raised in the parent. -/
def parResults (baseUrl : String) : List Track → Except PyError (List Bool)
  | [] => Except.ok []
  | track :: rest =>
    match process_track baseUrl track with
    | Except.error e => Except.error e
    | Except.ok pb =>
      match parResults baseUrl rest with
      | Except.error e => Except.error e
      | Except.ok bs => Except.ok (pb.snd :: bs)

/-- The collection `update_cover_art_urls_optimized.py` serializes back to the
file: `json.dump(tracks, ...)` writes the parent process's `tracks` list,
which `pool.map` never mutates (workers mutate pickled copies; only the
boolean results return), so on success the original records are written. -/
def parWritten (baseUrl : String) (ts : List Track) : Except PyError (List Track) :=
  (parResults baseUrl ts).map (fun _ => ts)

/-- `updated_count = sum(1 for result in results if result)` of the optimized
script. -/
def parCount (baseUrl : String) (ts : List Track) : Except PyError Nat :=
  (parResults baseUrl ts).map (fun bs => bs.count true)

/-- A record is eligible iff it has a `coverArt` key whose value is a string
beginning with `/` (the test `"coverArt" in track and
track["coverArt"].startswith("/")`). -/
def eligibleB (t : Track) : Bool :=
  match dictGet "coverArt" t with
  | some (JVal.str s) => pyStartswithSlash s
  | _ => false

/-- A record on which the eligibility test raises `AttributeError`: `coverArt`
present with a non-string value. -/
def badTrack (t : Track) : Bool :=
  match dictGet "coverArt" t with
  | some (JVal.str _) => false
  | some _ => true
  | none => false

/-- The per-record transform as a total function on records whose `coverArt`
is absent or a string; agrees with `seqBody` / `process_track` there.  Used to
state run-level results. -/
def transformTotal (baseUrl : String) (t : Track) : Track :=
  match dictGet "coverArt" t with
  | some (JVal.str s) =>
    if pyStartswithSlash s then setCoverArt t (JVal.str (rewriteUrl baseUrl s)) else t
  | _ => t

/-- The final `/`-delimited segment of a string: the last piece of its
Python `split("/")`. -/
def lastSegment (s : String) : String :=
  String.mk ((splitSlash s.data).getLastD [])

/-- Two records agree on key sequence and on every binding other than
`coverArt` (they "differ at most in the coverArt value"). -/
def sameExceptCoverArt (t t' : Track) : Prop :=
  List.Forall₂
    (fun kv kv' => kv.fst = kv'.fst ∧ (kv.fst ≠ "coverArt" → kv.snd = kv'.snd)) t t'

/-! ### Basic lemmas about the record operations -/

theorem dictGet_setCoverArt_self (t : Track) (v : JVal) :
    dictGet "coverArt" (setCoverArt t v) = (dictGet "coverArt" t).map (fun _ => v) := by
  induction t with
  | nil => rfl
  | cons kv rest ih =>
    by_cases h : kv.fst = "coverArt"
    · simp [setCoverArt, dictGet, h]
    · simp only [setCoverArt, List.map_cons, dictGet, h, if_false, if_neg h] at ih ⊢
      exact ih

theorem dictGet_setCoverArt_ne (t : Track) (v : JVal) (k : String) (hk : k ≠ "coverArt") :
    dictGet k (setCoverArt t v) = dictGet k t := by
  induction t with
  | nil => rfl
  | cons kv rest ih =>
    by_cases h : kv.fst = "coverArt"
    · have h2 : ¬ kv.fst = k := by
        rw [h]; exact fun hc => hk hc.symm
      have h3 : ¬ ("coverArt" : String) = k := fun hc => hk hc.symm
      simp only [setCoverArt, List.map_cons, if_pos h, dictGet, if_neg h2, if_neg h3] at ih ⊢
      exact ih
    · by_cases h2 : kv.fst = k
      · simp only [setCoverArt, List.map_cons, if_neg h, dictGet, if_pos h2]
      · simp only [setCoverArt, List.map_cons, if_neg h, dictGet, if_neg h2] at ih ⊢
        exact ih

theorem sameExceptCoverArt_refl (t : Track) : sameExceptCoverArt t t := by
  rw [sameExceptCoverArt, List.forall₂_same]
  intro kv _
  exact ⟨rfl, fun _ => rfl⟩

theorem sameExceptCoverArt_setCoverArt (t : Track) (v : JVal) :
    sameExceptCoverArt t (setCoverArt t v) := by
  rw [sameExceptCoverArt, setCoverArt, List.forall₂_map_right_iff, List.forall₂_same]
  intro kv _
  by_cases h : kv.fst = "coverArt"
  · simp [h]
  · simp [h]

/-! ### The per-record step, characterized by `badTrack` / `eligibleB` -/

theorem seqBody_eq_process_track (baseUrl : String) (t : Track) :
    seqBody baseUrl t = process_track baseUrl t := rfl

theorem seqBody_of_good (baseUrl : String) (t : Track) (h : badTrack t = false) :
    seqBody baseUrl t = Except.ok (transformTotal baseUrl t, eligibleB t) := by
  rw [seqBody, transformTotal, eligibleB]
  rw [badTrack] at h
  cases hg : dictGet "coverArt" t with
  | none => rfl
  | some v =>
    cases v with
    | str s =>
      by_cases hs : pyStartswithSlash s
      · simp [hs]
      · simp [hs]
    | num n => rw [hg] at h; simp at h
    | null => rw [hg] at h; simp at h
    | boolean b => rw [hg] at h; simp at h

theorem seqBody_of_bad (baseUrl : String) (t : Track) (h : badTrack t = true) :
    seqBody baseUrl t = Except.error PyError.attributeError := by
  rw [seqBody]
  rw [badTrack] at h
  cases hg : dictGet "coverArt" t with
  | none => rw [hg] at h; simp at h
  | some v =>
    cases v with
    | str s => rw [hg] at h; simp at h
    | num n => rfl
    | null => rfl
    | boolean b => rfl

/-! ### The sequential run, characterized -/

theorem seqMain_of_all_good (baseUrl : String) (ts : List Track)
    (h : ∀ t ∈ ts, badTrack t = false) :
    seqMain baseUrl ts =
      Except.ok (ts.map (transformTotal baseUrl), ts.countP eligibleB) := by
  induction ts with
  | nil => rfl
  | cons t rest ih =>
    have ht : badTrack t = false := h t (List.mem_cons_self t rest)
    have hrest : ∀ u ∈ rest, badTrack u = false := fun u hu => h u (List.mem_cons_of_mem t hu)
    rw [seqMain, seqBody_of_good baseUrl t ht, ih hrest]
    rw [List.map_cons, List.countP_cons, Nat.add_comm]

theorem seqMain_of_bad (baseUrl : String) (ts : List Track)
    (h : ∃ t ∈ ts, badTrack t = true) :
    seqMain baseUrl ts = Except.error PyError.attributeError := by
  induction ts with
  | nil => simp at h
  | cons t rest ih =>
    by_cases ht : badTrack t = true
    · rw [seqMain, seqBody_of_bad baseUrl t ht]
    · obtain ⟨u, hu, hbu⟩ := h
      rcases List.mem_cons.mp hu with h1 | h1
      · exact absurd (h1 ▸ hbu) ht
      · rw [seqMain, seqBody_of_good baseUrl t (Bool.not_eq_true _ ▸ ht)]
        rw [ih ⟨u, h1, hbu⟩]

theorem seqMain_ok_inv (baseUrl : String) (ts ts' : List Track) (n : Nat)
    (h : seqMain baseUrl ts = Except.ok (ts', n)) :
    (∀ t ∈ ts, badTrack t = false) ∧
      ts' = ts.map (transformTotal baseUrl) ∧ n = ts.countP eligibleB := by
  by_cases hg : ∀ t ∈ ts, badTrack t = false
  · rw [seqMain_of_all_good baseUrl ts hg] at h
    refine ⟨hg, ?_, ?_⟩
    · exact (congrArg Prod.fst (Except.ok.inj h)).symm
    · exact (congrArg Prod.snd (Except.ok.inj h)).symm
  · push_neg at hg
    obtain ⟨u, hu, hbu⟩ := hg
    rw [seqMain_of_bad baseUrl ts ⟨u, hu, Bool.not_eq_false _ ▸ hbu⟩] at h
    exact absurd h (by simp)

/-! ### The parallel dispatch, characterized -/

theorem parResults_of_all_good (baseUrl : String) (ts : List Track)
    (h : ∀ t ∈ ts, badTrack t = false) :
    parResults baseUrl ts = Except.ok (ts.map eligibleB) := by
  induction ts with
  | nil => rfl
  | cons t rest ih =>
    have ht : badTrack t = false := h t (List.mem_cons_self t rest)
    have hrest : ∀ u ∈ rest, badTrack u = false := fun u hu => h u (List.mem_cons_of_mem t hu)
    rw [parResults, ← seqBody_eq_process_track, seqBody_of_good baseUrl t ht, ih hrest]
    rfl

theorem parResults_of_bad (baseUrl : String) (ts : List Track)
    (h : ∃ t ∈ ts, badTrack t = true) :
    parResults baseUrl ts = Except.error PyError.attributeError := by
  induction ts with
  | nil => simp at h
  | cons t rest ih =>
    by_cases ht : badTrack t = true
    · rw [parResults, ← seqBody_eq_process_track, seqBody_of_bad baseUrl t ht]
    · obtain ⟨u, hu, hbu⟩ := h
      rcases List.mem_cons.mp hu with h1 | h1
      · exact absurd (h1 ▸ hbu) ht
      · rw [parResults, ← seqBody_eq_process_track,
          seqBody_of_good baseUrl t (Bool.not_eq_true _ ▸ ht)]
        rw [ih ⟨u, h1, hbu⟩]

theorem parResults_ok_inv (baseUrl : String) (ts : List Track) (bs : List Bool)
    (h : parResults baseUrl ts = Except.ok bs) :
    (∀ t ∈ ts, badTrack t = false) ∧ bs = ts.map eligibleB := by
  by_cases hg : ∀ t ∈ ts, badTrack t = false
  · rw [parResults_of_all_good baseUrl ts hg] at h
    exact ⟨hg, (Except.ok.inj h).symm⟩
  · push_neg at hg
    obtain ⟨u, hu, hbu⟩ := hg
    rw [parResults_of_bad baseUrl ts ⟨u, hu, Bool.not_eq_false _ ▸ hbu⟩] at h
    exact absurd h (by simp)

/-! ### Shape of the rewritten URL -/

theorem rewriteUrl_data (baseUrl : String) (s : String) :
    (rewriteUrl baseUrl s).data =
      baseUrl.data ++ '/' ::
        joinSlash ((splitSlash ((pyDirname (lstripSlash s)).data ++
          '/' :: "Cover.jpg".data)).map pyQuote) := rfl

theorem pyStartswithSlash_iff (s : String) :
    pyStartswithSlash s = true ↔ s.data.head? = some '/' := by
  rw [pyStartswithSlash]
  cases s.data with
  | nil => simp
  | cons c cs => simp [List.head?]

theorem pyStartswithSlash_rewriteUrl (s : String) :
    pyStartswithSlash (rewriteUrl base_url s) = false := by
  have hb : base_url.data.head? = some 'h' := by decide
  rw [Bool.eq_false_iff]
  intro hc
  rw [pyStartswithSlash_iff, rewriteUrl_data] at hc
  cases he : base_url.data with
  | nil => rw [he] at hb; exact absurd hb (by simp)
  | cons c cs =>
    rw [he] at hb hc
    simp only [List.cons_append, List.head?] at hb hc
    have : ('h' : Char) = '/' := by
      have h1 := Option.some.inj hb
      have h2 := Option.some.inj hc
      rw [← h1, h2]
    exact absurd this (by decide)

/-! ### The total transform, characterized -/

theorem transformTotal_of_not_eligible (baseUrl : String) (t : Track)
    (h : eligibleB t = false) : transformTotal baseUrl t = t := by
  rw [transformTotal]
  rw [eligibleB] at h
  cases hg : dictGet "coverArt" t with
  | none => rfl
  | some v =>
    cases v with
    | str s =>
      rw [hg] at h
      have h2 : pyStartswithSlash s = false := h
      show (if pyStartswithSlash s = true then
        setCoverArt t (JVal.str (rewriteUrl baseUrl s)) else t) = t
      rw [h2]
      simp
    | num n => rfl
    | null => rfl
    | boolean b => rfl

theorem transformTotal_of_eligible (baseUrl : String) (t : Track) (s : String)
    (hg : dictGet "coverArt" t = some (JVal.str s)) (hs : pyStartswithSlash s = true) :
    transformTotal baseUrl t = setCoverArt t (JVal.str (rewriteUrl baseUrl s)) := by
  rw [transformTotal, hg]
  show (if pyStartswithSlash s = true then
    setCoverArt t (JVal.str (rewriteUrl baseUrl s)) else t) = _
  rw [if_pos hs]

theorem eligibleB_iff (t : Track) :
    eligibleB t = true ↔
      ∃ s, dictGet "coverArt" t = some (JVal.str s) ∧ pyStartswithSlash s = true := by
  rw [eligibleB]
  cases hg : dictGet "coverArt" t with
  | none => simp
  | some v =>
    cases v with
    | str s => simp [hg]
    | num n => simp
    | null => simp
    | boolean b => simp

theorem badTrack_transformTotal (baseUrl : String) (t : Track)
    (h : badTrack t = false) : badTrack (transformTotal baseUrl t) = false := by
  by_cases he : eligibleB t = true
  · obtain ⟨s, hg, hs⟩ := (eligibleB_iff t).mp he
    rw [transformTotal_of_eligible baseUrl t s hg hs, badTrack,
      dictGet_setCoverArt_self, hg]
    rfl
  · rw [transformTotal_of_not_eligible baseUrl t (Bool.not_eq_true _ ▸ he)]
    exact h

theorem eligibleB_transformTotal (t : Track) :
    eligibleB (transformTotal base_url t) = false := by
  by_cases he : eligibleB t = true
  · obtain ⟨s, hg, hs⟩ := (eligibleB_iff t).mp he
    rw [transformTotal_of_eligible base_url t s hg hs, eligibleB,
      dictGet_setCoverArt_self, hg]
    exact pyStartswithSlash_rewriteUrl s
  · rw [transformTotal_of_not_eligible base_url t (Bool.not_eq_true _ ▸ he)]
    exact Bool.not_eq_true _ ▸ he

theorem transformTotal_idem (t : Track) :
    transformTotal base_url (transformTotal base_url t) = transformTotal base_url t :=
  transformTotal_of_not_eligible base_url _ (eligibleB_transformTotal t)

theorem sameExceptCoverArt_transformTotal (baseUrl : String) (t : Track) :
    sameExceptCoverArt t (transformTotal baseUrl t) := by
  by_cases he : eligibleB t = true
  · obtain ⟨s, hg, hs⟩ := (eligibleB_iff t).mp he
    rw [transformTotal_of_eligible baseUrl t s hg hs]
    exact sameExceptCoverArt_setCoverArt t _
  · rw [transformTotal_of_not_eligible baseUrl t (Bool.not_eq_true _ ▸ he)]
    exact sameExceptCoverArt_refl t

/-! ### Lemmas about the slash-handling string primitives -/

theorem dropWhile_head_false (p : Char → Bool) :
    ∀ (l : List Char) (a : Char), (l.dropWhile p).head? = some a → p a = false := by
  intro l
  induction l with
  | nil => intro a h; simp [List.dropWhile] at h
  | cons c cs ih =>
    intro a h
    rw [List.dropWhile] at h
    by_cases hc : p c = true
    · rw [hc] at h
      exact ih a h
    · rw [Bool.not_eq_true] at hc
      rw [hc] at h
      simp only [List.head?] at h
      exact (Option.some.inj h) ▸ hc

theorem lstripSlash_not_startswith (s : String) :
    pyStartswithSlash (lstripSlash s) = false := by
  rw [Bool.eq_false_iff]
  intro hc
  rw [pyStartswithSlash_iff] at hc
  have h := dropWhile_head_false (fun c => decide (c = '/')) s.data '/' hc
  simp at h

theorem lstripSlash_decomposition (s : String) (h : pyStartswithSlash s = true) :
    ∃ k, 1 ≤ k ∧ s.data = List.replicate k '/' ++ (lstripSlash s).data := by
  refine ⟨(s.data.takeWhile (fun c => c = '/')).length, ?_, ?_⟩
  · rw [pyStartswithSlash_iff] at h
    cases hd : s.data with
    | nil => rw [hd] at h; exact absurd h (by simp)
    | cons c cs =>
      rw [hd] at h
      simp only [List.head?] at h
      have hc : c = '/' := Option.some.inj h
      rw [List.takeWhile]
      simp [hc]
  · have hrep : s.data.takeWhile (fun c => c = '/') =
        List.replicate (s.data.takeWhile (fun c => c = '/')).length '/' := by
      refine List.eq_replicate_length.mpr ?_
      intro b hb
      have := List.mem_takeWhile_imp hb
      simpa using this
    rw [← hrep, lstripSlash]
    exact (List.takeWhile_append_dropWhile _ s.data).symm

theorem splitSlash_no_slash (l : List Char) (h : ∀ c ∈ l, c ≠ '/') :
    splitSlash l = [l] := by
  induction l with
  | nil => rfl
  | cons c cs ih =>
    have hc : c ≠ '/' := h c (List.mem_cons_self c cs)
    have hcs : ∀ d ∈ cs, d ≠ '/' := fun d hd => h d (List.mem_cons_of_mem c hd)
    rw [splitSlash, if_neg hc, ih hcs]

theorem splitSlash_append (xs ys : List Char) (hys : ∀ c ∈ ys, c ≠ '/') :
    ∃ ss, ss ≠ [] ∧ splitSlash (xs ++ '/' :: ys) = ss ++ [ys] := by
  induction xs with
  | nil =>
    refine ⟨[[]], by simp, ?_⟩
    rw [List.nil_append, splitSlash, if_pos rfl, splitSlash_no_slash ys hys]
    rfl
  | cons c cs ih =>
    obtain ⟨ss, hne, hs⟩ := ih
    by_cases hc : c = '/'
    · subst hc
      refine ⟨[] :: ss, by simp, ?_⟩
      rw [List.cons_append, splitSlash, if_pos rfl, hs]
      rfl
    · cases ss with
      | nil => exact absurd rfl hne
      | cons p ps =>
        refine ⟨(c :: p) :: ps, by simp, ?_⟩
        rw [List.cons_append, splitSlash, if_neg hc, hs]
        rfl

theorem joinSlash_concat (ss : List (List Char)) (y : List Char) (h : ss ≠ []) :
    joinSlash (ss ++ [y]) = joinSlash ss ++ '/' :: y := by
  induction ss with
  | nil => exact absurd rfl h
  | cons p ps ih =>
    cases ps with
    | nil => rfl
    | cons q qs =>
      have step : joinSlash (p :: (q :: qs ++ [y])) = p ++ '/' :: joinSlash (q :: qs ++ [y]) := by
        cases qs with
        | nil => rfl
        | cons r rs => rfl
      rw [List.cons_append, step, ih (by simp)]
      show p ++ '/' :: (joinSlash (q :: qs) ++ '/' :: y) =
        (p ++ '/' :: joinSlash (q :: qs)) ++ '/' :: y
      rw [List.append_assoc, List.cons_append]

theorem pyQuote_coverJpg : pyQuote "Cover.jpg".data = "Cover.jpg".data := by decide

theorem coverJpg_no_slash : ∀ c ∈ "Cover.jpg".data, c ≠ '/' := by decide

/-- For every base URL and every coverArt string, the URL the transform
produces ends in a final `/`-delimited segment that is literally `Cover.jpg`. -/
theorem lastSegment_rewriteUrl (baseUrl s : String) :
    lastSegment (rewriteUrl baseUrl s) = "Cover.jpg" := by
  obtain ⟨ss, hne, hs⟩ :=
    splitSlash_append (pyDirname (lstripSlash s)).data "Cover.jpg".data coverJpg_no_slash
  rw [lastSegment, rewriteUrl_data, hs, List.map_append, List.map_cons, List.map_nil,
    pyQuote_coverJpg]
  rw [joinSlash_concat (ss.map pyQuote) "Cover.jpg".data (by simpa using hne)]
  have hshape : baseUrl.data ++ '/' :: (joinSlash (ss.map pyQuote) ++ '/' :: "Cover.jpg".data) =
      (baseUrl.data ++ '/' :: joinSlash (ss.map pyQuote)) ++ '/' :: "Cover.jpg".data := by
    rw [List.append_assoc, List.cons_append]
  rw [hshape]
  obtain ⟨ss₂, hne₂, hs₂⟩ :=
    splitSlash_append (baseUrl.data ++ '/' :: joinSlash (ss.map pyQuote))
      "Cover.jpg".data coverJpg_no_slash
  rw [hs₂, List.getLastD_concat]

/-! ### Further helper lemmas for the claim theorems -/

theorem seqBody_of_eligible (baseUrl : String) (t : Track) (s : String)
    (hg : dictGet "coverArt" t = some (JVal.str s)) (hs : pyStartswithSlash s = true) :
    seqBody baseUrl t =
      Except.ok (setCoverArt t (JVal.str (rewriteUrl baseUrl s)), true) := by
  rw [seqBody, hg]
  show (if pyStartswithSlash s then
      Except.ok (setCoverArt t (JVal.str (rewriteUrl baseUrl s)), true)
    else Except.ok (t, false)) = _
  rw [if_pos hs]

theorem eligibleB_false_of_ineligible (t : Track)
    (hin : dictGet "coverArt" t = none ∨
      ∃ s, dictGet "coverArt" t = some (JVal.str s) ∧ pyStartswithSlash s = false) :
    eligibleB t = false := by
  rcases hin with h | ⟨s, hg, hs⟩
  · rw [eligibleB, h]
  · rw [eligibleB, hg]
    exact hs

theorem setCoverArt_rewrite_ne (t : Track) (s : String)
    (hg : dictGet "coverArt" t = some (JVal.str s)) (hs : pyStartswithSlash s = true) :
    setCoverArt t (JVal.str (rewriteUrl base_url s)) ≠ t := by
  intro heq
  have h1 : dictGet "coverArt" (setCoverArt t (JVal.str (rewriteUrl base_url s))) =
      some (JVal.str (rewriteUrl base_url s)) := by
    rw [dictGet_setCoverArt_self, hg]
    rfl
  rw [heq, hg] at h1
  have h2 : s = rewriteUrl base_url s := JVal.str.inj (Option.some.inj h1)
  have h3 := pyStartswithSlash_rewriteUrl s
  rw [h2] at hs
  rw [h3] at hs
  exact Bool.false_ne_true hs

theorem count_true_map_eligibleB (ts : List Track) :
    (ts.map eligibleB).count true = ts.countP eligibleB := by
  induction ts with
  | nil => rfl
  | cons t rest ih =>
    rw [List.map_cons, List.count_cons, List.countP_cons, ih]
    cases he : eligibleB t
    · simp
    · simp

theorem parCount_ok_inv (baseUrl : String) (ts : List Track) (m : Nat)
    (h : parCount baseUrl ts = Except.ok m) : m = ts.countP eligibleB := by
  rw [parCount] at h
  cases hp : parResults baseUrl ts with
  | error e => rw [hp] at h; exact absurd h (by simp [Except.map])
  | ok bs =>
    rw [hp] at h
    obtain ⟨hgood, hbs⟩ := parResults_ok_inv baseUrl ts bs hp
    subst hbs
    rw [← count_true_map_eligibleB ts]
    exact (Except.ok.inj h).symm

theorem parWritten_ok_inv (baseUrl : String) (ts tsp : List Track)
    (h : parWritten baseUrl ts = Except.ok tsp) : tsp = ts := by
  rw [parWritten] at h
  cases hp : parResults baseUrl ts with
  | error e => rw [hp] at h; exact absurd h (by simp [Except.map])
  | ok bs => rw [hp] at h; exact (Except.ok.inj h).symm

/-! ### Claim theorems -/

/-- C1: the claim asserts the sequential and parallel strategies serialize
identical output collections.  On the input collection
`[{"coverArt": "/a/b.mp3"}]` the sequential script writes the rewritten
record, while the optimized script writes the original record unchanged
(worker processes mutate pickled copies of the tracks; `json.dump(tracks, ...)`
in the parent serializes the never-mutated list), so the two outputs differ. -/
theorem claim_c1_strategy_divergence :
    seqMain base_url [[("coverArt", JVal.str "/a/b.mp3")]] =
      Except.ok ([[("coverArt",
        JVal.str "https://tune-mu.vercel.app/a/Cover.jpg")]], 1) ∧
    parWritten base_url [[("coverArt", JVal.str "/a/b.mp3")]] =
      Except.ok [[("coverArt", JVal.str "/a/b.mp3")]] ∧
    ([[("coverArt", JVal.str "https://tune-mu.vercel.app/a/Cover.jpg")]] :
        List Track) ≠
      [[("coverArt", JVal.str "/a/b.mp3")]] := by
  refine ⟨by decide, by decide, by decide⟩

/-- C2 counterexample: the claim says step 1 removes exactly one leading `/`,
so on `"//a/b.mp3"` the relative path would be `"/a/b.mp3"`; the code's
`lstrip("/")` instead removes both slashes and yields `"a/b.mp3"`. -/
theorem claim_c2_counterexample :
    pyStartswithSlash "//a/b.mp3" = true ∧
    lstripSlash "//a/b.mp3" ≠ "/a/b.mp3" ∧
    lstripSlash "//a/b.mp3" = "a/b.mp3" := by
  refine ⟨by decide, by decide, by decide⟩

/-- C2 amended: for every eligible coverArt string, step 1 removes ALL leading
`/` characters: the relative path no longer starts with `/`, and the original
string is exactly some `k ≥ 1` slashes followed by the relative path (so for a
single leading slash exactly one is removed, and for two or more all are). -/
theorem claim_c2_lstrip_amended (s : String) (h : pyStartswithSlash s = true) :
    pyStartswithSlash (lstripSlash s) = false ∧
    ∃ k, 1 ≤ k ∧ s.data = List.replicate k '/' ++ (lstripSlash s).data :=
  ⟨lstripSlash_not_startswith s, lstripSlash_decomposition s h⟩

/-- C2 amended, witness at the concrete input `"//a/b.mp3"`. -/
theorem claim_c2_lstrip_amended_witness :
    pyStartswithSlash (lstripSlash "//a/b.mp3") = false ∧
    ∃ k, 1 ≤ k ∧
      ("//a/b.mp3" : String).data =
        List.replicate k '/' ++ (lstripSlash "//a/b.mp3").data :=
  claim_c2_lstrip_amended "//a/b.mp3" (by decide)

/-- C9: the spec's concrete example.  The record
`{"coverArt": "/albums/Artist Name/Song.mp3", "title": "X"}` becomes
`{"coverArt": "https://tune-mu.vercel.app/albums/Artist%20Name/Cover.jpg",
"title": "X"}`; the record whose coverArt is an absolute URL and the record
without coverArt are unchanged; one update is reported. -/
theorem claim_c9_example :
    seqMain base_url
      [[("coverArt", JVal.str "/albums/Artist Name/Song.mp3"),
        ("title", JVal.str "X")],
       [("coverArt", JVal.str "https://other.com/a.jpg")],
       [("title", JVal.str "no art")]] =
    Except.ok
      ([[("coverArt",
          JVal.str "https://tune-mu.vercel.app/albums/Artist%20Name/Cover.jpg"),
         ("title", JVal.str "X")],
        [("coverArt", JVal.str "https://other.com/a.jpg")],
        [("title", JVal.str "no art")]], 1) := by
  decide

/-- C10: a record whose `coverArt` value is present but not a string makes the
eligibility check raise `AttributeError` (`.startswith` on a non-string)
instead of skipping the record; a run of either script containing such a
record aborts with the error, and no output collection is produced
(the file is never written). -/
theorem claim_c10_nonstring_error (baseUrl : String) (ts : List Track) (t : Track)
    (ht : t ∈ ts) (hbad : badTrack t = true) :
    process_track baseUrl t = Except.error PyError.attributeError ∧
    seqMain baseUrl ts = Except.error PyError.attributeError ∧
    parResults baseUrl ts = Except.error PyError.attributeError ∧
    parWritten baseUrl ts = Except.error PyError.attributeError := by
  refine ⟨?_, seqMain_of_bad baseUrl ts ⟨t, ht, hbad⟩,
    parResults_of_bad baseUrl ts ⟨t, ht, hbad⟩, ?_⟩
  · rw [← seqBody_eq_process_track]
    exact seqBody_of_bad baseUrl t hbad
  · rw [parWritten, parResults_of_bad baseUrl ts ⟨t, ht, hbad⟩]
    rfl

/-- C10, witness: the one-record collection `[{"coverArt": null}]`. -/
theorem claim_c10_nonstring_error_witness :
    process_track base_url [("coverArt", JVal.null)] =
      Except.error PyError.attributeError ∧
    seqMain base_url [[("coverArt", JVal.null)]] =
      Except.error PyError.attributeError ∧
    parResults base_url [[("coverArt", JVal.null)]] =
      Except.error PyError.attributeError ∧
    parWritten base_url [[("coverArt", JVal.null)]] =
      Except.error PyError.attributeError :=
  claim_c10_nonstring_error base_url [[("coverArt", JVal.null)]]
    [("coverArt", JVal.null)] (by decide) (by decide)

/-- C3: idempotence at the collection level.  Whenever a sequential run
succeeds and produces a collection, every record of that collection fails the
eligibility test (each rewritten coverArt starts with the base URL, not `/`),
so running the transform again reproduces the same collection and reports
zero updates. -/
theorem claim_c3_idempotence (ts ts' : List Track) (n : Nat)
    (h : seqMain base_url ts = Except.ok (ts', n)) :
    (∀ t ∈ ts', eligibleB t = false) ∧
    seqMain base_url ts' = Except.ok (ts', 0) := by
  obtain ⟨hgood, hts', _⟩ := seqMain_ok_inv base_url ts ts' n h
  subst hts'
  have hinel : ∀ t ∈ ts.map (transformTotal base_url), eligibleB t = false := by
    intro u hu
    obtain ⟨t, _, rfl⟩ := List.mem_map.mp hu
    exact eligibleB_transformTotal t
  refine ⟨hinel, ?_⟩
  have hgood' : ∀ u ∈ ts.map (transformTotal base_url), badTrack u = false := by
    intro u hu
    obtain ⟨t, ht, rfl⟩ := List.mem_map.mp hu
    exact badTrack_transformTotal base_url t (hgood t ht)
  rw [seqMain_of_all_good base_url _ hgood']
  have h1 : (ts.map (transformTotal base_url)).map (transformTotal base_url) =
      ts.map (transformTotal base_url) := by
    rw [List.map_map]
    exact List.map_congr_left (fun t _ => transformTotal_idem t)
  have h2 : (ts.map (transformTotal base_url)).countP eligibleB = 0 := by
    rw [List.countP_eq_zero]
    intro u hu
    rw [hinel u hu]
    exact Bool.false_ne_true
  rw [h1, h2]

/-- C3, witness: rerunning on the output of a run over one eligible record. -/
theorem claim_c3_idempotence_witness :
    (∀ t ∈ ([[("coverArt",
        JVal.str "https://tune-mu.vercel.app/a/Cover.jpg")]] : List Track),
      eligibleB t = false) ∧
    seqMain base_url
        [[("coverArt", JVal.str "https://tune-mu.vercel.app/a/Cover.jpg")]] =
      Except.ok
        ([[("coverArt", JVal.str "https://tune-mu.vercel.app/a/Cover.jpg")]], 0) :=
  claim_c3_idempotence [[("coverArt", JVal.str "/a/b.mp3")]]
    [[("coverArt", JVal.str "https://tune-mu.vercel.app/a/Cover.jpg")]] 1 (by decide)

/-- C4: pass-through.  A record that lacks the `coverArt` key, or whose
`coverArt` string does not start with `/`, is returned unchanged — every
binding included — at its position by a successful sequential run, and the
optimized script always writes back its input records unchanged. -/
theorem claim_c4_passthrough (ts ts' : List Track) (n i : Nat) (t : Track)
    (hget : ts[i]? = some t)
    (hin : dictGet "coverArt" t = none ∨
      ∃ s, dictGet "coverArt" t = some (JVal.str s) ∧ pyStartswithSlash s = false)
    (h : seqMain base_url ts = Except.ok (ts', n)) :
    ts'[i]? = some t ∧
    ∀ tsp, parWritten base_url ts = Except.ok tsp → tsp[i]? = some t := by
  obtain ⟨_, hts', _⟩ := seqMain_ok_inv base_url ts ts' n h
  subst hts'
  constructor
  · rw [List.getElem?_map, hget]
    show some (transformTotal base_url t) = some t
    rw [transformTotal_of_not_eligible base_url t (eligibleB_false_of_ineligible t hin)]
  · intro tsp hp
    rw [parWritten_ok_inv base_url ts tsp hp]
    exact hget

/-- C4, witness: a record with a non-relative coverArt next to an updated
record. -/
theorem claim_c4_passthrough_witness :
    ([[("coverArt", JVal.str "/a/b.mp3")],
      [("coverArt", JVal.str "https://other.com/a.jpg"), ("x", JVal.num 3)]] :
        List Track)[1]?.isSome ∧
    (([[("coverArt", JVal.str "https://tune-mu.vercel.app/a/Cover.jpg")],
       [("coverArt", JVal.str "https://other.com/a.jpg"), ("x", JVal.num 3)]] :
        List Track)[1]? =
      some [("coverArt", JVal.str "https://other.com/a.jpg"), ("x", JVal.num 3)] ∧
     ∀ tsp, parWritten base_url
        [[("coverArt", JVal.str "/a/b.mp3")],
         [("coverArt", JVal.str "https://other.com/a.jpg"), ("x", JVal.num 3)]] =
          Except.ok tsp →
        tsp[1]? =
          some [("coverArt", JVal.str "https://other.com/a.jpg"), ("x", JVal.num 3)]) :=
  ⟨by decide,
    claim_c4_passthrough
      [[("coverArt", JVal.str "/a/b.mp3")],
       [("coverArt", JVal.str "https://other.com/a.jpg"), ("x", JVal.num 3)]]
      [[("coverArt", JVal.str "https://tune-mu.vercel.app/a/Cover.jpg")],
       [("coverArt", JVal.str "https://other.com/a.jpg"), ("x", JVal.num 3)]]
      1 1 [("coverArt", JVal.str "https://other.com/a.jpg"), ("x", JVal.num 3)]
      (by decide)
      (Or.inr ⟨"https://other.com/a.jpg", by decide, by decide⟩)
      (by decide)⟩

/-- C5: filename normalization.  For every eligible record (coverArt a string
starting with `/`), whatever the original filename, the per-record transform
stores the URL `rewriteUrl baseUrl s`, whose final `/`-delimited segment is
the literal `Cover.jpg`. -/
theorem claim_c5_filename_normalization (baseUrl : String) (t : Track) (s : String)
    (hg : dictGet "coverArt" t = some (JVal.str s))
    (hs : pyStartswithSlash s = true) :
    seqBody baseUrl t =
      Except.ok (setCoverArt t (JVal.str (rewriteUrl baseUrl s)), true) ∧
    dictGet "coverArt" (setCoverArt t (JVal.str (rewriteUrl baseUrl s))) =
      some (JVal.str (rewriteUrl baseUrl s)) ∧
    lastSegment (rewriteUrl baseUrl s) = "Cover.jpg" := by
  refine ⟨seqBody_of_eligible baseUrl t s hg hs, ?_, lastSegment_rewriteUrl baseUrl s⟩
  rw [dictGet_setCoverArt_self, hg]
  rfl

/-- C5, witness: an eligible record whose original filename is `Song.mp3`. -/
theorem claim_c5_filename_normalization_witness :
    seqBody base_url [("coverArt", JVal.str "/albums/Band/Song.mp3")] =
      Except.ok (setCoverArt [("coverArt", JVal.str "/albums/Band/Song.mp3")]
        (JVal.str (rewriteUrl base_url "/albums/Band/Song.mp3")), true) ∧
    dictGet "coverArt" (setCoverArt [("coverArt", JVal.str "/albums/Band/Song.mp3")]
        (JVal.str (rewriteUrl base_url "/albums/Band/Song.mp3"))) =
      some (JVal.str (rewriteUrl base_url "/albums/Band/Song.mp3")) ∧
    lastSegment (rewriteUrl base_url "/albums/Band/Song.mp3") = "Cover.jpg" :=
  claim_c5_filename_normalization base_url
    [("coverArt", JVal.str "/albums/Band/Song.mp3")] "/albums/Band/Song.mp3"
    (by decide) (by decide)

/-- C6: order preservation.  A successful sequential run returns a collection
of the same length with records in the same positions, each differing from
its input record at most in the `coverArt` binding's value; the optimized
script writes back its input collection, which satisfies the same bound. -/
theorem claim_c6_order_preservation (baseUrl : String) (ts ts' : List Track) (n : Nat)
    (h : seqMain baseUrl ts = Except.ok (ts', n)) :
    ts'.length = ts.length ∧ List.Forall₂ sameExceptCoverArt ts ts' ∧
    ∀ tsp, parWritten baseUrl ts = Except.ok tsp →
      tsp.length = ts.length ∧ List.Forall₂ sameExceptCoverArt ts tsp := by
  obtain ⟨_, hts', _⟩ := seqMain_ok_inv baseUrl ts ts' n h
  subst hts'
  refine ⟨List.length_map ts (transformTotal baseUrl), ?_, ?_⟩
  · rw [List.forall₂_map_right_iff, List.forall₂_same]
    intro t _
    exact sameExceptCoverArt_transformTotal baseUrl t
  · intro tsp hp
    rw [parWritten_ok_inv baseUrl ts tsp hp]
    refine ⟨rfl, List.forall₂_same.mpr ?_⟩
    intro t _
    exact sameExceptCoverArt_refl t

/-- C6, witness: a two-record collection with one eligible record. -/
theorem claim_c6_order_preservation_witness :
    ([[("coverArt", JVal.str "https://tune-mu.vercel.app/a/Cover.jpg")],
      [("title", JVal.str "no art")]] : List Track).length =
      ([[("coverArt", JVal.str "/a/b.mp3")],
        [("title", JVal.str "no art")]] : List Track).length ∧
    List.Forall₂ sameExceptCoverArt
      [[("coverArt", JVal.str "/a/b.mp3")], [("title", JVal.str "no art")]]
      [[("coverArt", JVal.str "https://tune-mu.vercel.app/a/Cover.jpg")],
       [("title", JVal.str "no art")]] ∧
    ∀ tsp, parWritten base_url
        [[("coverArt", JVal.str "/a/b.mp3")], [("title", JVal.str "no art")]] =
        Except.ok tsp →
      tsp.length = ([[("coverArt", JVal.str "/a/b.mp3")],
        [("title", JVal.str "no art")]] : List Track).length ∧
      List.Forall₂ sameExceptCoverArt
        [[("coverArt", JVal.str "/a/b.mp3")], [("title", JVal.str "no art")]] tsp :=
  claim_c6_order_preservation base_url
    [[("coverArt", JVal.str "/a/b.mp3")], [("title", JVal.str "no art")]]
    [[("coverArt", JVal.str "https://tune-mu.vercel.app/a/Cover.jpg")],
     [("title", JVal.str "no art")]] 1 (by decide)

/-- C7: the parallel dispatcher.  `process_track` is the identical per-record
transform of the sequential loop; on success `pool.map` returns one boolean
per input record, in input order, and the flag at a position is true exactly
when the transform updates (changes) that record. -/
theorem claim_c7_parallel_dispatcher (ts : List Track) (bs : List Bool)
    (h : parResults base_url ts = Except.ok bs) :
    (∀ (b : String) (t : Track), process_track b t = seqBody b t) ∧
    bs.length = ts.length ∧
    ∀ (i : Nat) (t : Track), ts[i]? = some t →
      (bs[i]? = some true ↔
        ∃ t', process_track base_url t = Except.ok (t', true) ∧ t' ≠ t) := by
  obtain ⟨hgood, hbs⟩ := parResults_ok_inv base_url ts bs h
  subst hbs
  refine ⟨fun b t => rfl, List.length_map ts eligibleB, ?_⟩
  intro i t hget
  have hbi : (ts.map eligibleB)[i]? = some (eligibleB t) := by
    rw [List.getElem?_map, hget]
    rfl
  rw [hbi]
  constructor
  · intro htrue
    have he : eligibleB t = true := Option.some.inj htrue
    obtain ⟨s, hg, hs⟩ := (eligibleB_iff t).mp he
    refine ⟨setCoverArt t (JVal.str (rewriteUrl base_url s)), ?_, ?_⟩
    · rw [← seqBody_eq_process_track]
      exact seqBody_of_eligible base_url t s hg hs
    · exact setCoverArt_rewrite_ne t s hg hs
  · intro hupd
    obtain ⟨t', hok, _⟩ := hupd
    by_cases he : eligibleB t = true
    · rw [he]
    · have hb : badTrack t = false := hgood t (List.getElem?_mem hget)
      rw [← seqBody_eq_process_track, seqBody_of_good base_url t hb] at hok
      have := congrArg Prod.snd (Except.ok.inj hok)
      exact absurd this.symm (by rw [Bool.not_eq_true] at he; rw [he]; simp)

/-- C7, witness: one eligible and one ineligible record. -/
theorem claim_c7_parallel_dispatcher_witness :
    (∀ (b : String) (t : Track), process_track b t = seqBody b t) ∧
    ([true, false] : List Bool).length =
      ([[("coverArt", JVal.str "/a/b.mp3")],
        [("title", JVal.str "no art")]] : List Track).length ∧
    ∀ (i : Nat) (t : Track), ([[("coverArt", JVal.str "/a/b.mp3")],
        [("title", JVal.str "no art")]] : List Track)[i]? = some t →
      (([true, false] : List Bool)[i]? = some true ↔
        ∃ t', process_track base_url t = Except.ok (t', true) ∧ t' ≠ t) :=
  claim_c7_parallel_dispatcher
    [[("coverArt", JVal.str "/a/b.mp3")], [("title", JVal.str "no art")]]
    [true, false] (by decide)

/-- C8: the reported updated count, sequential and parallel, equals the number
of eligible records, and the transform is applied to exactly the eligible
records: each eligible record is replaced by its rewrite and each ineligible
record is returned unchanged. -/
theorem claim_c8_update_count (baseUrl : String) (ts ts' : List Track) (n : Nat)
    (h : seqMain baseUrl ts = Except.ok (ts', n)) :
    n = ts.countP eligibleB ∧
    (∀ (i : Nat) (t : Track), ts[i]? = some t →
      (eligibleB t = true →
        ∃ s, dictGet "coverArt" t = some (JVal.str s) ∧
          ts'[i]? = some (setCoverArt t (JVal.str (rewriteUrl baseUrl s)))) ∧
      (eligibleB t = false → ts'[i]? = some t)) ∧
    ∀ m, parCount baseUrl ts = Except.ok m → m = ts.countP eligibleB := by
  obtain ⟨_, hts', hn⟩ := seqMain_ok_inv baseUrl ts ts' n h
  subst hts'
  refine ⟨hn, ?_, fun m hm => parCount_ok_inv baseUrl ts m hm⟩
  intro i t hget
  have hmap : (ts.map (transformTotal baseUrl))[i]? = some (transformTotal baseUrl t) := by
    rw [List.getElem?_map, hget]
    rfl
  constructor
  · intro he
    obtain ⟨s, hg, hs⟩ := (eligibleB_iff t).mp he
    refine ⟨s, hg, ?_⟩
    rw [hmap, transformTotal_of_eligible baseUrl t s hg hs]
  · intro he
    rw [hmap, transformTotal_of_not_eligible baseUrl t he]

/-- C8, witness: two eligible records and one ineligible record. -/
theorem claim_c8_update_count_witness :
    (2 : Nat) = ([[("coverArt", JVal.str "/a/b.mp3")],
      [("title", JVal.str "no art")],
      [("coverArt", JVal.str "/c.png")]] : List Track).countP eligibleB ∧
    (∀ (i : Nat) (t : Track), ([[("coverArt", JVal.str "/a/b.mp3")],
        [("title", JVal.str "no art")],
        [("coverArt", JVal.str "/c.png")]] : List Track)[i]? = some t →
      (eligibleB t = true →
        ∃ s, dictGet "coverArt" t = some (JVal.str s) ∧
          ([[("coverArt", JVal.str "https://tune-mu.vercel.app/a/Cover.jpg")],
            [("title", JVal.str "no art")],
            [("coverArt", JVal.str "https://tune-mu.vercel.app//Cover.jpg")]] :
              List Track)[i]? =
            some (setCoverArt t (JVal.str (rewriteUrl base_url s)))) ∧
      (eligibleB t = false →
        ([[("coverArt", JVal.str "https://tune-mu.vercel.app/a/Cover.jpg")],
          [("title", JVal.str "no art")],
          [("coverArt", JVal.str "https://tune-mu.vercel.app//Cover.jpg")]] :
            List Track)[i]? = some t)) ∧
    ∀ m, parCount base_url
        [[("coverArt", JVal.str "/a/b.mp3")],
         [("title", JVal.str "no art")],
         [("coverArt", JVal.str "/c.png")]] = Except.ok m →
      m = ([[("coverArt", JVal.str "/a/b.mp3")],
        [("title", JVal.str "no art")],
        [("coverArt", JVal.str "/c.png")]] : List Track).countP eligibleB :=
  claim_c8_update_count base_url
    [[("coverArt", JVal.str "/a/b.mp3")],
     [("title", JVal.str "no art")],
     [("coverArt", JVal.str "/c.png")]]
    [[("coverArt", JVal.str "https://tune-mu.vercel.app/a/Cover.jpg")],
     [("title", JVal.str "no art")],
     [("coverArt", JVal.str "https://tune-mu.vercel.app//Cover.jpg")]]
    2 (by decide)
